import Mathlib

/-!
Verification of `modules/planning/common/planning_util.cc` (Apollo planning
utilities): the three `interpolate` overloads (PathPoint, TrajectoryPoint,
SLPoint).  Doubles are modelled as real numbers; protobuf messages as
structures whose fields default to `0` when never assigned.

The numeric primitives the file calls live elsewhere in the repository
(`modules/planning/math/hermite_spline.h`, `modules/common/math/integral.h`,
`modules/common/math/math_utils.h`); they are modelled from the spec's
contracts for them, as noted on each definition.
-/

noncomputable section

open Real

open scoped Classical

/-- PathPoint message (fields used by planning_util.cc): world position,
heading, curvature and its first two rates, arc length. -/
structure PathPoint where
  x : ℝ
  y : ℝ
  theta : ℝ
  kappa : ℝ
  dkappa : ℝ
  ddkappa : ℝ
  s : ℝ

/-- TrajectoryPoint message: an embedded PathPoint plus speed, acceleration
and time relative to the trajectory start. -/
structure TrajectoryPoint where
  path_point : PathPoint
  v : ℝ
  a : ℝ
  relative_time : ℝ

/-- SLPoint message: arc length and signed lateral offset. -/
structure SLPoint where
  s : ℝ
  l : ℝ

attribute [ext] PathPoint TrajectoryPoint SLPoint

/-- Modelled from the spec: `HermiteSpline<double, 3>` of
`modules/planning/math/hermite_spline.h` — the unique cubic polynomial on
`[a, b]` whose value and first derivative at `a` are `v0, d0` and at `b` are
`v1, d1`; `hermite3 v0 d0 v1 d1 a b order x` is `Evaluate(order, x)`, the
`order`-th derivative at `x`.  The coefficients below (in powers of `x - a`)
are the closed-form solution of those four Hermite conditions. -/
def hermite3 (v0 d0 v1 d1 a b : ℝ) (order : ℕ) (x : ℝ) : ℝ :=
  let h := b - a
  let A := v1 - v0 - d0 * h
  let B := d1 - d0
  let c2 := (3 * A - B * h) / h ^ 2
  let c3 := (B * h - 2 * A) / h ^ 3
  let u := x - a
  match order with
  | 0 => v0 + d0 * u + c2 * u ^ 2 + c3 * u ^ 3
  | 1 => d0 + 2 * c2 * u + 3 * c3 * u ^ 2
  | 2 => 2 * c2 + 6 * c3 * u
  | 3 => 6 * c3
  | _ => 0

/-- Modelled from the spec: `HermiteSpline<double, 5>` of
`modules/planning/math/hermite_spline.h` — the unique quintic polynomial on
`[a, b]` matching value, first and second derivative `v0, d0, c0` at `a` and
`v1, d1, c1` at `b`; `hermite5 ... order x` is `Evaluate(order, x)`.  The
coefficients (in powers of `x - a`) solve the six Hermite conditions. -/
def hermite5 (v0 d0 c0 v1 d1 c1 a b : ℝ) (order : ℕ) (x : ℝ) : ℝ :=
  let h := b - a
  let A := v1 - v0 - d0 * h - c0 * h ^ 2 / 2
  let B := d1 - d0 - c0 * h
  let C := c1 - c0
  let k3 := (10 * A - 4 * B * h + C * h ^ 2 / 2) / h ^ 3
  let k4 := (-15 * A + 7 * B * h - C * h ^ 2) / h ^ 4
  let k5 := (6 * A - 3 * B * h + C * h ^ 2 / 2) / h ^ 5
  let u := x - a
  match order with
  | 0 => v0 + d0 * u + c0 / 2 * u ^ 2 + k3 * u ^ 3 + k4 * u ^ 4 + k5 * u ^ 5
  | 1 => d0 + c0 * u + 3 * k3 * u ^ 2 + 4 * k4 * u ^ 3 + 5 * k5 * u ^ 4
  | 2 => c0 + 6 * k3 * u + 12 * k4 * u ^ 2 + 20 * k5 * u ^ 3
  | 3 => 6 * k3 + 24 * k4 * u + 60 * k5 * u ^ 2
  | 4 => 24 * k4 + 120 * k5 * u
  | 5 => 120 * k5
  | _ => 0

/-- Modelled from the spec: `IntegrateByGaussLegendre<5>` of
`modules/common/math/integral.h` — the fixed 5-node Gauss-Legendre rule for
`∫ f` over `[a, b]`, mapped from the reference interval `[-1, 1]`. -/
def integrateByGaussLegendre5 (f : ℝ → ℝ) (a b : ℝ) : ℝ :=
  let t := (b - a) / 2
  let c := (b + a) / 2
  let x1 := Real.sqrt (5 - 2 * Real.sqrt (10 / 7)) / 3
  let x2 := Real.sqrt (5 + 2 * Real.sqrt (10 / 7)) / 3
  let w0 : ℝ := 128 / 225
  let w1 := (322 + 13 * Real.sqrt 70) / 900
  let w2 := (322 - 13 * Real.sqrt 70) / 900
  t * (w0 * f c + w1 * f (c + t * x1) + w1 * f (c - t * x1) +
    w2 * f (c + t * x2) + w2 * f (c - t * x2))

/-- Modelled from the spec: `common::math::NormalizeAngle` of
`modules/common/math/math_utils.h` — reduces an angle modulo `2π` into
`(-π, π]`. -/
def normalizeAngle (θ : ℝ) : ℝ := θ - 2 * π * (⌈(θ - π) / (2 * π)⌉ : ℤ)

/-- The path-geometry quintic of `interpolate(PathPoint, PathPoint, double)`:
a Hermite fit of heading relative to `p0.theta` over `[p0.s, p1.s]`, with
boundary data `(0, p0.kappa, p0.dkappa)` and
`(NormalizeAngle(p1.theta - p0.theta), p1.kappa, p1.dkappa)`
(planning_util.cc lines 46-51). -/
def pathGeometrySpline (p0 p1 : PathPoint) (order : ℕ) (u : ℝ) : ℝ :=
  hermite5 0 p0.kappa p0.dkappa (normalizeAngle (p1.theta - p0.theta))
    p1.kappa p1.dkappa p0.s p1.s order u

/-- `interpolate(const PathPoint&, const PathPoint&, const double s)` of
planning_util.cc lines 40-80.  The C++ `CHECK(s0 <= s && s <= s1)` aborts the
process when violated; that fatal outcome is modelled as `none`. -/
def interpolatePathPoint (p0 p1 : PathPoint) (s : ℝ) : Option PathPoint :=
  if p0.s ≤ s ∧ s ≤ p1.s then
    some
      ⟨p0.x + integrateByGaussLegendre5
          (fun u => Real.cos (pathGeometrySpline p0 p1 0 u + p0.theta)) p0.s s,
       p0.y + integrateByGaussLegendre5
          (fun u => Real.sin (pathGeometrySpline p0 p1 0 u + p0.theta)) p0.s s,
       normalizeAngle (pathGeometrySpline p0 p1 0 s + p0.theta),
       pathGeometrySpline p0 p1 1 s,
       pathGeometrySpline p0 p1 2 s,
       pathGeometrySpline p0 p1 3 s,
       s⟩
  else none

/-- The dynamics cubic of
`interpolate(const TrajectoryPoint&, const TrajectoryPoint&, const double t)`:
speed as a function of time over `[tp0.relative_time, tp1.relative_time]`
with boundary data `(tp0.v, tp0.a)` and `(tp1.v, tp1.a)`
(planning_util.cc lines 93-95). -/
def dynamicSpline (tp0 tp1 : TrajectoryPoint) (order : ℕ) (τ : ℝ) : ℝ :=
  hermite3 tp0.v tp0.a tp1.v tp1.a tp0.relative_time tp1.relative_time order τ

/-- Arc length accumulated by the dynamics spline from `tp0.relative_time`
to `t`: the `func_v` Gauss-Legendre integrals of planning_util.cc lines
98-103 (`s1` is this at `tp1.relative_time`, `s` this at the query `t`). -/
def trajArcLength (tp0 tp1 : TrajectoryPoint) (t : ℝ) : ℝ :=
  integrateByGaussLegendre5 (fun τ => dynamicSpline tp0 tp1 0 τ)
    tp0.relative_time t

/-- The trajectory-geometry cubic of the TrajectoryPoint overload: heading as
a function of arc length over `[0, s1]` with boundary data
`(pp0.theta, pp0.kappa)` and `(pp1.theta, pp1.kappa)` — the raw endpoint
headings, with no angle normalization (planning_util.cc lines 111-113). -/
def trajGeometrySpline (tp0 tp1 : TrajectoryPoint) (order : ℕ) (u : ℝ) : ℝ :=
  hermite3 tp0.path_point.theta tp0.path_point.kappa
    tp1.path_point.theta tp1.path_point.kappa
    0 (trajArcLength tp0 tp1 tp1.relative_time) order u

/-- Body of the TrajectoryPoint overload after its first early return
(planning_util.cc lines 88-147): the second degeneracy check
`|tp0.path_point.s - s1| < 1e-4` still returns `tp1`; otherwise the result
is assembled field by field.  `TrajectoryPoint tp;` is default-constructed
and `relative_time` is never assigned, so it keeps the protobuf default 0. -/
def interpolateTrajectoryPointCore (tp0 tp1 : TrajectoryPoint) (t : ℝ) :
    TrajectoryPoint :=
  if |tp0.path_point.s - trajArcLength tp0 tp1 tp1.relative_time| < 1e-4 then
    tp1
  else
    ⟨⟨tp0.path_point.x + integrateByGaussLegendre5
         (fun u => Real.cos (trajGeometrySpline tp0 tp1 0 u)) 0
         (trajArcLength tp0 tp1 t),
      tp0.path_point.y + integrateByGaussLegendre5
         (fun u => Real.sin (trajGeometrySpline tp0 tp1 0 u)) 0
         (trajArcLength tp0 tp1 t),
      trajGeometrySpline tp0 tp1 0 (trajArcLength tp0 tp1 t),
      trajGeometrySpline tp0 tp1 1 (trajArcLength tp0 tp1 t),
      trajGeometrySpline tp0 tp1 2 (trajArcLength tp0 tp1 t),
      trajGeometrySpline tp0 tp1 3 (trajArcLength tp0 tp1 t),
      trajArcLength tp0 tp1 t⟩,
     dynamicSpline tp0 tp1 0 t,
     dynamicSpline tp0 tp1 1 t,
     0⟩

/-- `interpolate(const TrajectoryPoint&, const TrajectoryPoint&, const double
t)` of planning_util.cc lines 82-147.  Its first test (line 84) is
`std::abs(tp0.path_point().s() - tp0.path_point().s()) < 1.0e-4` — the same
point on both sides, exactly as written in the source. -/
def interpolateTrajectoryPoint (tp0 tp1 : TrajectoryPoint) (t : ℝ) :
    TrajectoryPoint :=
  if |tp0.path_point.s - tp0.path_point.s| < 1e-4 then tp1
  else interpolateTrajectoryPointCore tp0 tp1 t

/-- `interpolate(const SLPoint&, const SLPoint&, const double weight)` of
planning_util.cc lines 149-157. -/
def interpolateSLPoint (start₁ end₁ : SLPoint) (weight : ℝ) : SLPoint :=
  ⟨start₁.s * (1 - weight) + end₁.s * weight,
   start₁.l * (1 - weight) + end₁.l * weight⟩

/-! Basic facts about the angle normalization model. -/

/-- The normalized angle always lands in `(-π, π]`. -/
theorem normalizeAngle_mem_Ioc (θ : ℝ) : normalizeAngle θ ∈ Set.Ioc (-π) π := by
  unfold normalizeAngle
  have h2π : (0 : ℝ) < 2 * π := by positivity
  have hle : (θ - π) / (2 * π) ≤ (⌈(θ - π) / (2 * π)⌉ : ℝ) := Int.le_ceil _
  have hlt : (⌈(θ - π) / (2 * π)⌉ : ℝ) < (θ - π) / (2 * π) + 1 :=
    Int.ceil_lt_add_one _
  have h1 : θ - π ≤ (⌈(θ - π) / (2 * π)⌉ : ℝ) * (2 * π) :=
    (div_le_iff h2π).mp hle
  have h2 : ((⌈(θ - π) / (2 * π)⌉ : ℝ) - 1) * (2 * π) < θ - π :=
    (lt_div_iff h2π).mp (by linarith)
  constructor
  · nlinarith
  · nlinarith

/-- An angle already in `(-π, π]` is left unchanged. -/
theorem normalizeAngle_eq_self (θ : ℝ) (h : θ ∈ Set.Ioc (-π) π) :
    normalizeAngle θ = θ := by
  unfold normalizeAngle
  have h2π : (0 : ℝ) < 2 * π := by positivity
  have hceil : ⌈(θ - π) / (2 * π)⌉ = 0 := by
    rw [Int.ceil_eq_zero_iff]
    constructor
    · exact (lt_div_iff h2π).mpr (by nlinarith [h.1])
    · exact (div_le_iff h2π).mpr (by nlinarith [h.2])
  rw [hceil]
  push_cast
  ring

/-- Normalization is invariant under shifting by an integer multiple of
`2π`. -/
theorem normalizeAngle_add_int_mul (θ : ℝ) (k : ℤ) :
    normalizeAngle (θ + 2 * π * k) = normalizeAngle θ := by
  unfold normalizeAngle
  have h2π : (2 * π : ℝ) ≠ 0 := by positivity
  have : (θ + 2 * π * k - π) / (2 * π) = (θ - π) / (2 * π) + k := by
    field_simp; ring
  rw [this, Int.ceil_add_int]
  push_cast
  ring

/-- `normalizeAngle 0 = 0`. -/
theorem normalizeAngle_zero : normalizeAngle 0 = 0 :=
  normalizeAngle_eq_self 0 ⟨by linarith [Real.pi_pos], le_of_lt Real.pi_pos⟩

/-! Facts about the quadrature and the Hermite fits. -/

/-- The Gauss-Legendre rule over an empty interval is 0. -/
theorem integrateByGaussLegendre5_same (f : ℝ → ℝ) (a : ℝ) :
    integrateByGaussLegendre5 f a a = 0 := by
  simp [integrateByGaussLegendre5]

/-- The Gauss-Legendre rule integrates a constant exactly: the weights sum
to 2 and the half-width factor turns that into `b - a`. -/
theorem integrateByGaussLegendre5_const (c a b : ℝ) :
    integrateByGaussLegendre5 (fun _ => c) a b = (b - a) * c := by
  simp only [integrateByGaussLegendre5]
  ring

/-- The cubic Hermite fit with equal boundary values and zero boundary
derivatives is the constant polynomial. -/
theorem hermite3_const (c a b x : ℝ) : hermite3 c 0 c 0 a b 0 x = c := by
  simp only [hermite3]
  ring

/-- Cubic Hermite boundary conditions at the left abscissa: value. -/
theorem hermite3_val_left (v0 d0 v1 d1 a b : ℝ) :
    hermite3 v0 d0 v1 d1 a b 0 a = v0 := by
  simp only [hermite3]
  ring

/-- Cubic Hermite boundary conditions at the left abscissa: first
derivative. -/
theorem hermite3_d1_left (v0 d0 v1 d1 a b : ℝ) :
    hermite3 v0 d0 v1 d1 a b 1 a = d0 := by
  simp only [hermite3]
  ring

/-- Cubic Hermite boundary conditions at the right abscissa: value. -/
theorem hermite3_val_right (v0 d0 v1 d1 a b : ℝ) (hab : a ≠ b) :
    hermite3 v0 d0 v1 d1 a b 0 b = v1 := by
  have hh : b - a ≠ 0 := sub_ne_zero.mpr (Ne.symm hab)
  simp only [hermite3]
  field_simp
  ring

/-- Cubic Hermite boundary conditions at the right abscissa: first
derivative. -/
theorem hermite3_d1_right (v0 d0 v1 d1 a b : ℝ) (hab : a ≠ b) :
    hermite3 v0 d0 v1 d1 a b 1 b = d1 := by
  have hh : b - a ≠ 0 := sub_ne_zero.mpr (Ne.symm hab)
  simp only [hermite3]
  field_simp
  ring

/-- The quintic Hermite fit with all-zero boundary data has value 0
everywhere. -/
theorem hermite5_zero (a b x : ℝ) : hermite5 0 0 0 0 0 0 a b 0 x = 0 := by
  simp only [hermite5]
  ring

/-- Quintic Hermite boundary conditions at the left abscissa: value. -/
theorem hermite5_val_left (v0 d0 c0 v1 d1 c1 a b : ℝ) :
    hermite5 v0 d0 c0 v1 d1 c1 a b 0 a = v0 := by
  simp only [hermite5]
  ring

/-- Quintic Hermite boundary conditions at the left abscissa: first
derivative. -/
theorem hermite5_d1_left (v0 d0 c0 v1 d1 c1 a b : ℝ) :
    hermite5 v0 d0 c0 v1 d1 c1 a b 1 a = d0 := by
  simp only [hermite5]
  ring

/-- Quintic Hermite boundary conditions at the left abscissa: second
derivative. -/
theorem hermite5_d2_left (v0 d0 c0 v1 d1 c1 a b : ℝ) :
    hermite5 v0 d0 c0 v1 d1 c1 a b 2 a = c0 := by
  simp only [hermite5]
  ring

/-- Quintic Hermite boundary conditions at the right abscissa: value. -/
theorem hermite5_val_right (v0 d0 c0 v1 d1 c1 a b : ℝ) (hab : a ≠ b) :
    hermite5 v0 d0 c0 v1 d1 c1 a b 0 b = v1 := by
  have hh : b - a ≠ 0 := sub_ne_zero.mpr (Ne.symm hab)
  simp only [hermite5]
  field_simp
  ring

/-- Quintic Hermite boundary conditions at the right abscissa: first
derivative. -/
theorem hermite5_d1_right (v0 d0 c0 v1 d1 c1 a b : ℝ) (hab : a ≠ b) :
    hermite5 v0 d0 c0 v1 d1 c1 a b 1 b = d1 := by
  have hh : b - a ≠ 0 := sub_ne_zero.mpr (Ne.symm hab)
  simp only [hermite5]
  field_simp
  ring

/-- Quintic Hermite boundary conditions at the right abscissa: second
derivative. -/
theorem hermite5_d2_right (v0 d0 c0 v1 d1 c1 a b : ℝ) (hab : a ≠ b) :
    hermite5 v0 d0 c0 v1 d1 c1 a b 2 b = c1 := by
  have hh : b - a ≠ 0 := sub_ne_zero.mpr (Ne.symm hab)
  simp only [hermite5]
  field_simp
  ring

/-- Adding back `p0.theta` to the normalized difference and normalizing
again recovers `θ1` when `θ1` is already normalized. -/
theorem normalizeAngle_diff_add (θ0 θ1 : ℝ) (h1 : θ1 ∈ Set.Ioc (-π) π) :
    normalizeAngle (normalizeAngle (θ1 - θ0) + θ0) = θ1 := by
  have key : normalizeAngle (θ1 - θ0) + θ0 =
      θ1 + 2 * π * ((-⌈(θ1 - θ0 - π) / (2 * π)⌉ : ℤ) : ℝ) := by
    unfold normalizeAngle
    push_cast
    ring
  rw [key, normalizeAngle_add_int_mul, normalizeAngle_eq_self θ1 h1]

/-- With equal headings and zero curvature data at both ends, the path
geometry spline is identically zero (heading relative to `p0.theta`). -/
theorem pathGeometrySpline_zero (p0 p1 : PathPoint) (u : ℝ)
    (hθ : p0.theta = p1.theta) (hk0 : p0.kappa = 0) (hk1 : p1.kappa = 0)
    (hd0 : p0.dkappa = 0) (hd1 : p1.dkappa = 0) :
    pathGeometrySpline p0 p1 0 u = 0 := by
  unfold pathGeometrySpline
  rw [hk0, hk1, hd0, hd1, hθ, sub_self, normalizeAngle_zero, hermite5_zero]

/-- Straight-line displacement of the PathPoint overload under constant
heading and zero curvature data: the integrands are the constants
`cos p0.theta` and `sin p0.theta`. -/
theorem interpolatePathPoint_straight_xy (p0 p1 : PathPoint) (s : ℝ)
    (hθ : p0.theta = p1.theta) (hk0 : p0.kappa = 0) (hk1 : p1.kappa = 0)
    (hd0 : p0.dkappa = 0) (hd1 : p1.dkappa = 0) (hin : p0.s ≤ s ∧ s ≤ p1.s) :
    ∃ p, interpolatePathPoint p0 p1 s = some p ∧
      p.x = p0.x + (s - p0.s) * Real.cos p0.theta ∧
      p.y = p0.y + (s - p0.s) * Real.sin p0.theta := by
  have hcos : (fun u => Real.cos (pathGeometrySpline p0 p1 0 u + p0.theta)) =
      fun _ => Real.cos p0.theta := funext fun u => by
    rw [pathGeometrySpline_zero p0 p1 u hθ hk0 hk1 hd0 hd1, zero_add]
  have hsin : (fun u => Real.sin (pathGeometrySpline p0 p1 0 u + p0.theta)) =
      fun _ => Real.sin p0.theta := funext fun u => by
    rw [pathGeometrySpline_zero p0 p1 u hθ hk0 hk1 hd0 hd1, zero_add]
  unfold interpolatePathPoint
  rw [if_pos hin, hcos, hsin, integrateByGaussLegendre5_const,
    integrateByGaussLegendre5_const]
  exact ⟨_, rfl, rfl, rfl⟩

/-! Claim theorems on the SLPoint and TrajectoryPoint overloads. -/

/-- C1: the first degeneracy test of the TrajectoryPoint overload compares
`tp0.path_point.s` against itself, so its absolute difference is `0 < 1e-4`
on every call, the early return is always taken, and `tp1` is returned
unchanged for every input. -/
theorem C1_first_test_always_fires (tp0 tp1 : TrajectoryPoint) (t : ℝ) :
    interpolateTrajectoryPoint tp0 tp1 t = tp1 := by
  unfold interpolateTrajectoryPoint
  rw [sub_self, abs_zero, if_pos (by norm_num)]

/-- C3: when the two inputs' arc lengths agree within `1e-4`, the
TrajectoryPoint overload returns `tp1` unchanged for any query time. -/
theorem C3_degenerate_span_returns_tp1 (tp0 tp1 : TrajectoryPoint) (t : ℝ)
    (_h : |tp0.path_point.s - tp1.path_point.s| < 1e-4) :
    interpolateTrajectoryPoint tp0 tp1 t = tp1 := by
  unfold interpolateTrajectoryPoint
  rw [sub_self, abs_zero, if_pos (by norm_num)]

/-- C3 witness: concrete degenerate pair, query time 5. -/
theorem C3_degenerate_span_returns_tp1_witness :
    |(⟨⟨0, 0, 0, 0, 0, 0, 1⟩, 0, 0, 0⟩ : TrajectoryPoint).path_point.s -
      (⟨⟨2, 3, 0, 0, 0, 0, 1⟩, 1, 1, 1⟩ : TrajectoryPoint).path_point.s| < 1e-4 ∧
    interpolateTrajectoryPoint ⟨⟨0, 0, 0, 0, 0, 0, 1⟩, 0, 0, 0⟩
      ⟨⟨2, 3, 0, 0, 0, 0, 1⟩, 1, 1, 1⟩ 5 = ⟨⟨2, 3, 0, 0, 0, 0, 1⟩, 1, 1, 1⟩ :=
  ⟨by norm_num,
   C3_degenerate_span_returns_tp1 _ _ 5 (by norm_num)⟩

/-- C4: the PathPoint overload fails fatally (returns no value) exactly when
the `CHECK(s0 <= s && s <= s1)` precondition is violated; under the
precondition it returns a path point normally. -/
theorem C4_check_fatal_iff (p0 p1 : PathPoint) (s : ℝ) :
    interpolatePathPoint p0 p1 s = none ↔ ¬(p0.s ≤ s ∧ s ≤ p1.s) := by
  unfold interpolatePathPoint
  split <;> simp_all

/-- C7: the SLPoint overload is the exact affine blend
`s = s0·(1−w) + s1·w`, `l = l0·(1−w) + l1·w` for every weight (clamping
nothing), reproduces the endpoints at weights 0 and 1, and its `s` output is
monotone in the weight (nondecreasing when `a.s ≤ b.s`, nonincreasing when
`b.s ≤ a.s`). -/
theorem C7_sl_affine_blend (a b : SLPoint) (w : ℝ) :
    (interpolateSLPoint a b w).s = a.s * (1 - w) + b.s * w ∧
    (interpolateSLPoint a b w).l = a.l * (1 - w) + b.l * w ∧
    interpolateSLPoint a b 0 = a ∧
    interpolateSLPoint a b 1 = b ∧
    (∀ w1 w2 : ℝ, w1 ≤ w2 →
      (a.s ≤ b.s →
        (interpolateSLPoint a b w1).s ≤ (interpolateSLPoint a b w2).s) ∧
      (b.s ≤ a.s →
        (interpolateSLPoint a b w2).s ≤ (interpolateSLPoint a b w1).s)) := by
  refine ⟨rfl, rfl, ?_, ?_, ?_⟩
  · ext <;> simp [interpolateSLPoint]
  · ext <;> simp [interpolateSLPoint]
  · intro w1 w2 h12
    constructor <;> intro hab <;> simp only [interpolateSLPoint] <;> nlinarith

/-- C6: whenever the PathPoint overload returns a value, its heading lies in
`(-π, π]`, for arbitrary (even unnormalized) input headings. -/
theorem C6_result_theta_normalized (p0 p1 : PathPoint) (s : ℝ)
    (h : p0.s ≤ s ∧ s ≤ p1.s) :
    ∃ p, interpolatePathPoint p0 p1 s = some p ∧ p.theta ∈ Set.Ioc (-π) π := by
  unfold interpolatePathPoint
  rw [if_pos h]
  exact ⟨_, rfl, normalizeAngle_mem_Ioc _⟩

/-- C6 witness: a concrete in-range query. -/
theorem C6_result_theta_normalized_witness :
    (0 : ℝ) ≤ 1 ∧ (1 : ℝ) ≤ 2 ∧
    ∃ p, interpolatePathPoint ⟨0, 0, 7, 0, 0, 0, 0⟩ ⟨5, 5, -9, 0, 0, 0, 2⟩ 1 =
      some p ∧ p.theta ∈ Set.Ioc (-π) π :=
  ⟨by norm_num, by norm_num,
   C6_result_theta_normalized ⟨0, 0, 7, 0, 0, 0, 0⟩ ⟨5, 5, -9, 0, 0, 0, 2⟩ 1
     ⟨by norm_num, by norm_num⟩⟩

/-- C5 (amended): with `p0.s < p1.s` and both headings already normalized,
querying at `s = p0.s` reproduces all of `p0.x, p0.y, p0.theta, p0.kappa,
p0.dkappa` exactly and the result's `s` is the query; querying at `s = p1.s`
reproduces `p1.theta, p1.kappa, p1.dkappa` exactly and the result's `s` is
the query.  (The `x, y` at `s = p1.s` come from the quadrature started at
`p0` and need not match `p1.x, p1.y` — see the counterexample.) -/
theorem C5_boundary_exactness (p0 p1 : PathPoint) (hlt : p0.s < p1.s)
    (h0 : p0.theta ∈ Set.Ioc (-π) π) (h1 : p1.theta ∈ Set.Ioc (-π) π) :
    (∃ p, interpolatePathPoint p0 p1 p0.s = some p ∧
       p.x = p0.x ∧ p.y = p0.y ∧ p.theta = p0.theta ∧
       p.kappa = p0.kappa ∧ p.dkappa = p0.dkappa ∧ p.s = p0.s) ∧
    (∃ q, interpolatePathPoint p0 p1 p1.s = some q ∧
       q.theta = p1.theta ∧ q.kappa = p1.kappa ∧ q.dkappa = p1.dkappa ∧
       q.s = p1.s) := by
  have hne : p0.s ≠ p1.s := ne_of_lt hlt
  constructor
  · unfold interpolatePathPoint
    rw [if_pos ⟨le_refl _, le_of_lt hlt⟩, integrateByGaussLegendre5_same,
      integrateByGaussLegendre5_same]
    refine ⟨_, rfl, by ring, by ring, ?_, ?_, ?_, rfl⟩
    · show normalizeAngle (pathGeometrySpline p0 p1 0 p0.s + p0.theta) = p0.theta
      unfold pathGeometrySpline
      rw [hermite5_val_left, zero_add, normalizeAngle_eq_self p0.theta h0]
    · show pathGeometrySpline p0 p1 1 p0.s = p0.kappa
      unfold pathGeometrySpline
      rw [hermite5_d1_left]
    · show pathGeometrySpline p0 p1 2 p0.s = p0.dkappa
      unfold pathGeometrySpline
      rw [hermite5_d2_left]
  · unfold interpolatePathPoint
    rw [if_pos ⟨le_of_lt hlt, le_refl _⟩]
    refine ⟨_, rfl, ?_, ?_, ?_, rfl⟩
    · show normalizeAngle (pathGeometrySpline p0 p1 0 p1.s + p0.theta) = p1.theta
      unfold pathGeometrySpline
      rw [hermite5_val_right _ _ _ _ _ _ _ _ hne]
      exact normalizeAngle_diff_add p0.theta p1.theta h1
    · show pathGeometrySpline p0 p1 1 p1.s = p1.kappa
      unfold pathGeometrySpline
      rw [hermite5_d1_right _ _ _ _ _ _ _ _ hne]
    · show pathGeometrySpline p0 p1 2 p1.s = p1.dkappa
      unfold pathGeometrySpline
      rw [hermite5_d2_right _ _ _ _ _ _ _ _ hne]

/-- C5 counterexample: at `s = p1.s` the result's `x` is produced by the
quadrature from `p0`, and on an input whose `p1.x` is inconsistent with the
geometry it misses `p1.x` by far more than the claimed `1e-6` relative
tolerance (here the result's `x` is 1 while `p1.x = 1000`). -/
theorem C5_boundary_counterexample :
    ∃ p, interpolatePathPoint ⟨0, 0, 0, 0, 0, 0, 0⟩ ⟨1000, 0, 0, 0, 0, 0, 1⟩ 1 =
      some p ∧ ¬ |p.x - (1000 : ℝ)| ≤ 1e-6 * |(1000 : ℝ)| := by
  obtain ⟨p, hp, hx, -⟩ :=
    interpolatePathPoint_straight_xy ⟨0, 0, 0, 0, 0, 0, 0⟩
      ⟨1000, 0, 0, 0, 0, 0, 1⟩ 1 rfl rfl rfl rfl rfl ⟨by norm_num, by norm_num⟩
  refine ⟨p, hp, ?_⟩
  rw [hx]
  dsimp only
  rw [Real.cos_zero]
  norm_num

/-- C5 witness: a concrete pair with normalized headings and `p0.s < p1.s`. -/
theorem C5_boundary_exactness_witness :
    (0 : ℝ) < 1 ∧
    ((∃ p, interpolatePathPoint ⟨2, 3, 1, 4, 5, 6, 0⟩ ⟨7, 8, -1, 9, 10, 11, 1⟩ 0 =
        some p ∧ p.x = 2 ∧ p.y = 3 ∧ p.theta = 1 ∧ p.kappa = 4 ∧ p.dkappa = 5 ∧
        p.s = 0) ∧
     (∃ q, interpolatePathPoint ⟨2, 3, 1, 4, 5, 6, 0⟩ ⟨7, 8, -1, 9, 10, 11, 1⟩ 1 =
        some q ∧ q.theta = -1 ∧ q.kappa = 9 ∧ q.dkappa = 10 ∧ q.s = 1)) :=
  ⟨by norm_num,
   C5_boundary_exactness ⟨2, 3, 1, 4, 5, 6, 0⟩ ⟨7, 8, -1, 9, 10, 11, 1⟩
     (by norm_num)
     ⟨by show -π < (1 : ℝ); nlinarith [Real.pi_gt_three],
      by show (1 : ℝ) ≤ π; nlinarith [Real.pi_gt_three]⟩
     ⟨by show -π < (-1 : ℝ); nlinarith [Real.pi_gt_three],
      by show (-1 : ℝ) ≤ π; nlinarith [Real.pi_gt_three]⟩⟩

/-- C8: with equal headings and zero curvature and curvature rate at both
ends, the PathPoint overload moves exactly `(L·cos θ, L·sin θ)` from
`(p0.x, p0.y)` with `L = s - p0.s`: the fitted quintic is identically zero,
the heading is constant, and the 5-node Gauss-Legendre rule integrates a
constant exactly. -/
theorem C8_straight_line_displacement (p0 p1 : PathPoint) (s : ℝ)
    (hθ : p0.theta = p1.theta) (hk0 : p0.kappa = 0) (hk1 : p1.kappa = 0)
    (hd0 : p0.dkappa = 0) (hd1 : p1.dkappa = 0) (hs0 : p0.s ≤ s)
    (hs1 : s ≤ p1.s) :
    ∃ p, interpolatePathPoint p0 p1 s = some p ∧
      p.x = p0.x + (s - p0.s) * Real.cos p0.theta ∧
      p.y = p0.y + (s - p0.s) * Real.sin p0.theta :=
  interpolatePathPoint_straight_xy p0 p1 s hθ hk0 hk1 hd0 hd1 ⟨hs0, hs1⟩

/-- C8 witness: heading 0 over `[0, 2]`, query `s = 1`. -/
theorem C8_straight_line_displacement_witness :
    ∃ p, interpolatePathPoint ⟨10, 20, 0, 0, 0, 0, 0⟩ ⟨0, 0, 0, 0, 0, 0, 2⟩ 1 =
      some p ∧
      p.x = 10 + (1 - 0) * Real.cos 0 ∧ p.y = 20 + (1 - 0) * Real.sin 0 :=
  C8_straight_line_displacement ⟨10, 20, 0, 0, 0, 0, 0⟩ ⟨0, 0, 0, 0, 0, 0, 2⟩ 1
    rfl rfl rfl rfl rfl (by norm_num) (by norm_num)

/-- The dynamics spline with equal boundary speeds and zero boundary
accelerations is the constant speed. -/
theorem dynamicSpline_const_v (tp0 tp1 : TrajectoryPoint) (τ : ℝ)
    (hv : tp0.v = tp1.v) (ha0 : tp0.a = 0) (ha1 : tp1.a = 0) :
    dynamicSpline tp0 tp1 0 τ = tp0.v := by
  unfold dynamicSpline
  rw [ha0, ha1, hv]
  exact hermite3_const _ _ _ _

/-- Arc length accumulated at constant speed. -/
theorem trajArcLength_const_speed (tp0 tp1 : TrajectoryPoint) (t : ℝ)
    (hv : tp0.v = tp1.v) (ha0 : tp0.a = 0) (ha1 : tp1.a = 0) :
    trajArcLength tp0 tp1 t = (t - tp0.relative_time) * tp0.v := by
  unfold trajArcLength
  rw [show (fun τ => dynamicSpline tp0 tp1 0 τ) = fun _ => tp0.v from
    funext fun τ => dynamicSpline_const_v tp0 tp1 τ hv ha0 ha1,
    integrateByGaussLegendre5_const]

/-- C2 (code evaluation): when the non-degenerate path of the
TrajectoryPoint overload runs (the second early return is not taken), the
returned point's `relative_time` is the protobuf default 0 — the field is
never assigned — not the query `t`. -/
theorem C2_relative_time_never_set (tp0 tp1 : TrajectoryPoint) (t : ℝ)
    (h : ¬ |tp0.path_point.s - trajArcLength tp0 tp1 tp1.relative_time| < 1e-4) :
    (interpolateTrajectoryPointCore tp0 tp1 t).relative_time = 0 := by
  unfold interpolateTrajectoryPointCore
  rw [if_neg h]

/-- C2 witness: constant unit speed over one second from arc length 0, so
the integrated span is 1 and the second early return is not taken. -/
theorem C2_relative_time_never_set_witness :
    (interpolateTrajectoryPointCore ⟨⟨0, 0, 0, 0, 0, 0, 0⟩, 1, 0, 0⟩
      ⟨⟨5, 5, 0, 0, 0, 0, 1⟩, 1, 0, 1⟩ (1 / 2)).relative_time = 0 :=
  C2_relative_time_never_set _ _ _ (by
    rw [trajArcLength_const_speed ⟨⟨0, 0, 0, 0, 0, 0, 0⟩, 1, 0, 0⟩
      ⟨⟨5, 5, 0, 0, 0, 0, 1⟩, 1, 0, 1⟩ _ rfl rfl rfl]
    dsimp only
    norm_num)

/-- C10: on the non-degenerate path of the TrajectoryPoint overload the
result's heading is the raw heading-vs-arc-length cubic evaluated with the
endpoint headings as given — no angle normalization anywhere; consequently
some inputs produce a heading outside `(-π, π]` (here 10), and headings
that cross the `±π` boundary (here 3 to −3) are interpolated through the
long way around (midpoint heading 0 instead of near `±π`). -/
theorem C10_traj_theta_unnormalized :
    (∀ (tp0 tp1 : TrajectoryPoint) (t : ℝ),
      ¬ |tp0.path_point.s - trajArcLength tp0 tp1 tp1.relative_time| < 1e-4 →
      (interpolateTrajectoryPointCore tp0 tp1 t).path_point.theta =
        trajGeometrySpline tp0 tp1 0 (trajArcLength tp0 tp1 t)) ∧
    (∃ (tp0 tp1 : TrajectoryPoint) (t : ℝ),
      ¬ |tp0.path_point.s - trajArcLength tp0 tp1 tp1.relative_time| < 1e-4 ∧
      (interpolateTrajectoryPointCore tp0 tp1 t).path_point.theta ∉
        Set.Ioc (-π) π) ∧
    (interpolateTrajectoryPointCore ⟨⟨0, 0, 3, 0, 0, 0, 0⟩, 1, 0, 0⟩
        ⟨⟨0, 0, -3, 0, 0, 0, 1⟩, 1, 0, 1⟩ (1 / 2)).path_point.theta = 0 := by
  refine ⟨?_, ?_, ?_⟩
  · intro tp0 tp1 t h
    unfold interpolateTrajectoryPointCore
    rw [if_neg h]
  · refine ⟨⟨⟨0, 0, 10, 0, 0, 0, 0⟩, 1, 0, 0⟩, ⟨⟨0, 0, 10, 0, 0, 0, 1⟩, 1, 0, 1⟩,
      1 / 2, ?_, ?_⟩
    · rw [trajArcLength_const_speed ⟨⟨0, 0, 10, 0, 0, 0, 0⟩, 1, 0, 0⟩
        ⟨⟨0, 0, 10, 0, 0, 0, 1⟩, 1, 0, 1⟩ _ rfl rfl rfl]
      dsimp only
      norm_num
    · have hneg : ¬ |(⟨⟨0, 0, 10, 0, 0, 0, 0⟩, 1, 0, 0⟩ :
          TrajectoryPoint).path_point.s -
          trajArcLength ⟨⟨0, 0, 10, 0, 0, 0, 0⟩, 1, 0, 0⟩
            ⟨⟨0, 0, 10, 0, 0, 0, 1⟩, 1, 0, 1⟩
            (⟨⟨0, 0, 10, 0, 0, 0, 1⟩, 1, 0, 1⟩ :
              TrajectoryPoint).relative_time| < 1e-4 := by
        rw [trajArcLength_const_speed ⟨⟨0, 0, 10, 0, 0, 0, 0⟩, 1, 0, 0⟩
          ⟨⟨0, 0, 10, 0, 0, 0, 1⟩, 1, 0, 1⟩ _ rfl rfl rfl]
        dsimp only
        norm_num
      unfold interpolateTrajectoryPointCore
      rw [if_neg hneg]
      dsimp only
      show trajGeometrySpline _ _ 0 _ ∉ Set.Ioc (-π) π
      unfold trajGeometrySpline
      dsimp only
      rw [hermite3_const]
      rintro ⟨-, h2⟩
      nlinarith [Real.pi_lt_315]
  · have harc : ∀ t : ℝ, trajArcLength ⟨⟨0, 0, 3, 0, 0, 0, 0⟩, 1, 0, 0⟩
        ⟨⟨0, 0, -3, 0, 0, 0, 1⟩, 1, 0, 1⟩ t = t := fun t => by
      rw [trajArcLength_const_speed ⟨⟨0, 0, 3, 0, 0, 0, 0⟩, 1, 0, 0⟩
        ⟨⟨0, 0, -3, 0, 0, 0, 1⟩, 1, 0, 1⟩ _ rfl rfl rfl]
      dsimp only
      ring
    have hneg : ¬ |(⟨⟨0, 0, 3, 0, 0, 0, 0⟩, 1, 0, 0⟩ :
        TrajectoryPoint).path_point.s -
        trajArcLength ⟨⟨0, 0, 3, 0, 0, 0, 0⟩, 1, 0, 0⟩
          ⟨⟨0, 0, -3, 0, 0, 0, 1⟩, 1, 0, 1⟩
          (⟨⟨0, 0, -3, 0, 0, 0, 1⟩, 1, 0, 1⟩ :
            TrajectoryPoint).relative_time| < 1e-4 := by
      rw [harc]
      dsimp only
      norm_num
    unfold interpolateTrajectoryPointCore
    rw [if_neg hneg]
    dsimp only
    show trajGeometrySpline _ _ 0 _ = 0
    unfold trajGeometrySpline
    rw [harc, harc]
    dsimp only
    simp only [hermite3]
    norm_num

end
